import Mathlib

/-!
Verification development for the combinatorics ReAct agent
(`src/1-llm-api/combinatorics_agent.py`).

The Python module is embedded shallowly:

* Python dict payloads returned by the tool functions are association
  lists `List (String × JVal)` in insertion order, with `JVal` covering
  the two value kinds that occur (integers and strings).
* `math.comb` is `Nat.choose` and `math.perm` is `Nat.descFactorial`
  (the falling factorial `n!/(n-m)!` that `math.perm` computes).
* The OpenAI chat API is an external collaborator; it is modelled as a
  function `backend : List Turn → Response` from the current transcript
  to the model's reply (text content plus a list of tool calls).
* `json.loads` on a tool call's argument string is modelled by storing
  the decoding outcome in the call: `arguments : Option (Int × Int)`,
  `none` meaning the payload does not decode (`json.loads` raises).
* Python exceptions escaping `run` (a `KeyError` from the
  `available_functions` lookup, a decode error from `json.loads`) are
  the `Except.error` branch; the failure record keeps the error, the
  number of backend calls already made and the transcript as mutated so
  far, since the Python `messages` list is mutated in place and both
  observations survive the raised exception.
-/

/-- JSON-ish values occurring in tool payloads. -/
inductive JVal where
  | int (i : Int)
  | str (s : String)
deriving DecidableEq, Repr

/-- The exact validation message both tools use. -/
def invalidMsg : String :=
  "Invalid input: n and m must be non-negative integers with m <= n"

/-- Embedding of `calculate_combinations` (lines 18-31 of the source).
Python ints are `Int`; in the success branches `0 ≤ m ≤ n` holds, so
`math.comb n m` is `Nat.choose n.toNat m.toNat`. -/
def calculate_combinations (n m : Int) : List (String × JVal) :=
  if m > n ∨ m < 0 ∨ n < 0 then
    [("error", JVal.str invalidMsg)]
  else if m = 0 ∨ m = n then
    [("n", JVal.int n), ("m", JVal.int m), ("combinations", JVal.int 1)]
  else
    [("n", JVal.int n), ("m", JVal.int m),
     ("combinations", JVal.int (Nat.choose n.toNat m.toNat))]

/-- Embedding of `calculate_permutations` (lines 33-46 of the source).
`math.perm n m` is the falling factorial `Nat.descFactorial`. -/
def calculate_permutations (n m : Int) : List (String × JVal) :=
  if m > n ∨ m < 0 ∨ n < 0 then
    [("error", JVal.str invalidMsg)]
  else if m = 0 then
    [("n", JVal.int n), ("m", JVal.int m), ("permutations", JVal.int 1)]
  else
    [("n", JVal.int n), ("m", JVal.int m),
     ("permutations", JVal.int (Nat.descFactorial n.toNat m.toNat))]

/-- Embedding of the `available_functions` registry dict. -/
def available_functions (fname : String) :
    Option (Int → Int → List (String × JVal)) :=
  if fname = "calculate_combinations" then some calculate_combinations
  else if fname = "calculate_permutations" then some calculate_permutations
  else none

/-- A tool call as it appears in a model response: correlation id, tool
name, and the argument payload with `none` marking a payload that
`json.loads` fails to decode. -/
structure ToolCall where
  id : String
  fname : String
  arguments : Option (Int × Int)
deriving DecidableEq, Repr

/-- Roles of conversation turns. -/
inductive Role where
  | system
  | user
  | assistant
  | tool
deriving DecidableEq, Repr

/-- Content of a turn: plain text, or (for tool turns) the
`json.dumps` of a tool payload, kept structurally. -/
inductive Content where
  | text (s : String)
  | json (fields : List (String × JVal))
deriving DecidableEq, Repr

/-- A transcript turn, mirroring the dicts appended to `messages`. -/
structure Turn where
  role : Role
  content : Option Content
  tool_calls : List ToolCall
  tool_call_id : Option String
  fname : Option String
deriving DecidableEq, Repr

/-- The model backend's reply: optional text plus tool calls
(`response_message.content` and `response_message.tool_calls`, with the
Python `None` tool-call list embedded as `[]`). -/
structure Response where
  content : Option String
  tool_calls : List ToolCall
deriving Repr

/-- The assistant turn appended when the response carries tool calls
(lines 138-152 of the source). -/
def mkAssistantTools (c : Option String) (tcs : List ToolCall) : Turn :=
  { role := Role.assistant, content := c.map Content.text,
    tool_calls := tcs, tool_call_id := none, fname := none }

/-- The final assistant turn appended on the no-tool-calls path
(lines 184-187 of the source). -/
def mkAssistantFinal (c : Option String) : Turn :=
  { role := Role.assistant, content := c.map Content.text,
    tool_calls := [], tool_call_id := none, fname := none }

/-- Fatal errors escaping `run` as Python exceptions. -/
inductive RunError where
  | unknownTool (fname : String)
  | malformedToolArguments (id : String)
deriving DecidableEq, Repr

/-- How a run ended: `Done` (final text) or `Exhausted` (sentinel). -/
inductive Outcome where
  | done
  | exhausted
deriving DecidableEq, Repr

/-- A completed run: the returned string (the final content, possibly
`None`, or the sentinel), the transcript after the in-place mutation of
`messages`, the number of backend calls made, and the terminal state. -/
structure RunResult where
  result : Option String
  transcript : List Turn
  calls : Nat
  outcome : Outcome
deriving DecidableEq, Repr

/-- A failed run: the raised error together with the observations that
survive the exception — backend calls made and the mutated transcript. -/
structure RunFailure where
  err : RunError
  calls : Nat
  transcript : List Turn
deriving DecidableEq, Repr

/-- The sentinel returned when the iteration budget runs out
(line 193 of the source). -/
def sentinelMsg : String :=
  "Error: Maximum iterations reached without getting a final answer."

/-- The per-batch tool loop (lines 155-175 of the source): for each
call, `json.loads` the arguments, look the name up in
`available_functions`, execute, and append the tool turn. A decode
failure or a missing registry key raises; the transcript mutated so
far is carried in the error. -/
def dispatchTools (messages : List Turn) :
    List ToolCall → Except (RunError × List Turn) (List Turn)
  | [] => Except.ok messages
  | tc :: rest =>
    match tc.arguments with
    | none => Except.error (RunError.malformedToolArguments tc.id, messages)
    | some (n, m) =>
      match available_functions tc.fname with
      | none => Except.error (RunError.unknownTool tc.fname, messages)
      | some f =>
        dispatchTools
          (messages ++
            [{ role := Role.tool, content := some (Content.json (f n m)),
               tool_calls := [], tool_call_id := some tc.id,
               fname := some tc.fname }]) rest

/-- The `while iteration < self.max_iterations` loop of `run`
(lines 117-193), with `fuel = max_iterations - iteration` and `calls`
counting backend invocations. Each iteration calls the backend; with
tool calls present it appends the assistant turn, dispatches the batch
and loops, otherwise it appends the final assistant turn and returns
the content. Fuel 0 returns the sentinel. -/
def runLoop (backend : List Turn → Response) :
    Nat → List Turn → Nat → Except RunFailure RunResult
  | 0, messages, calls =>
    Except.ok { result := some sentinelMsg, transcript := messages,
                calls := calls, outcome := Outcome.exhausted }
  | fuel + 1, messages, calls =>
    match (backend messages).tool_calls with
    | [] =>
      Except.ok { result := (backend messages).content,
                  transcript :=
                    messages ++ [mkAssistantFinal (backend messages).content],
                  calls := calls + 1, outcome := Outcome.done }
    | tc :: rest =>
      match dispatchTools
          (messages ++ [mkAssistantTools (backend messages).content (tc :: rest)])
          (tc :: rest) with
      | Except.error e =>
        Except.error { err := e.1, calls := calls + 1, transcript := e.2 }
      | Except.ok msgs => runLoop backend fuel msgs (calls + 1)

/-- `CombinatoricsAgent.run`: the loop with `iteration = 0`, driven by
`self.max_iterations`. -/
def run (maxIter : Nat) (backend : List Turn → Response)
    (messages : List Turn) : Except RunFailure RunResult :=
  runLoop backend maxIter messages 0

/-- Concrete backend: two tool calls in one assistant turn, matching the
spec's two-tool-calls scenario. -/
def twoCalls : List ToolCall :=
  [{ id := "call_1", fname := "calculate_combinations", arguments := some (10, 3) },
   { id := "call_2", fname := "calculate_permutations", arguments := some (5, 2) }]

/-- Scripted backend that always answers with the two tool calls. -/
def backendTwo : List Turn → Response :=
  fun _ => { content := none, tool_calls := twoCalls }

/-- Scripted backend that requests one tool call on every turn. -/
def backendLooping : List Turn → Response :=
  fun _ =>
    { content := none,
      tool_calls :=
        [{ id := "call_a", fname := "calculate_combinations",
           arguments := some (10, 3) }] }

/-- Scripted backend that never requests a tool. -/
def backendDone : List Turn → Response :=
  fun _ => { content := some "hello", tool_calls := [] }

/-- Scripted backend whose first response requests an unregistered tool. -/
def backendUnknown : List Turn → Response :=
  fun _ =>
    { content := some "t",
      tool_calls :=
        [{ id := "call_x", fname := "no_such_tool", arguments := some (1, 1) }] }

/-- Scripted backend whose first response carries an argument payload
that does not decode. -/
def backendMalformed : List Turn → Response :=
  fun _ =>
    { content := none,
      tool_calls :=
        [{ id := "call_y", fname := "calculate_combinations",
           arguments := none }] }

/-- The tool turn produced by a well-formed tool call (lines 168-173 of
the source); on a call that would raise, the content field is unused. -/
def execTurn (tc : ToolCall) : Turn :=
  { role := Role.tool,
    content :=
      match tc.arguments, available_functions tc.fname with
      | some (n, m), some f => some (Content.json (f n m))
      | _, _ => none,
    tool_calls := [], tool_call_id := some tc.id, fname := some tc.fname }

/-- Branch-free comparator for `calculate_combinations`, following the
spec: on every valid input apply the general `math.comb` formula, with
the same validation guard. -/
def combinations_general (n m : Int) : List (String × JVal) :=
  if m > n ∨ m < 0 ∨ n < 0 then
    [("error", JVal.str invalidMsg)]
  else
    [("n", JVal.int n), ("m", JVal.int m),
     ("combinations", JVal.int (Nat.choose n.toNat m.toNat))]

/-- Branch-free comparator for `calculate_permutations`, following the
spec: on every valid input apply the general `math.perm` formula, with
the same validation guard. -/
def permutations_general (n m : Int) : List (String × JVal) :=
  if m > n ∨ m < 0 ∨ n < 0 then
    [("error", JVal.str invalidMsg)]
  else
    [("n", JVal.int n), ("m", JVal.int m),
     ("permutations", JVal.int (Nat.descFactorial n.toNat m.toNat))]

/-- A concrete exhausted run of `backendLooping` with budget 2. -/
def toolTurnA : Turn :=
  { role := Role.tool,
    content := some (Content.json
      [("n", JVal.int 10), ("m", JVal.int 3), ("combinations", JVal.int 120)]),
    tool_calls := [], tool_call_id := some "call_a",
    fname := some "calculate_combinations" }

/-- The result record of `run 2 backendLooping []`. -/
def exhaustedRun : RunResult :=
  { result := some sentinelMsg,
    transcript :=
      [mkAssistantTools none (backendLooping []).tool_calls, toolTurnA,
       mkAssistantTools none (backendLooping []).tool_calls, toolTurnA],
    calls := 2, outcome := Outcome.exhausted }

theorem comb_valid_eq (n m : Int) (h0 : 0 ≤ m) (h1 : m ≤ n) :
    calculate_combinations n m =
      [("n", JVal.int n), ("m", JVal.int m),
       ("combinations", JVal.int (Nat.choose n.toNat m.toNat))] := by
  have hg : ¬(m > n ∨ m < 0 ∨ n < 0) := by omega
  unfold calculate_combinations
  rw [if_neg hg]
  by_cases hc : m = 0 ∨ m = n
  · rw [if_pos hc]
    rcases hc with h | h
    · subst h; simp
    · subst h; simp [Nat.choose_self]
  · rw [if_neg hc]

theorem perm_valid_eq (n m : Int) (h0 : 0 ≤ m) (h1 : m ≤ n) :
    calculate_permutations n m =
      [("n", JVal.int n), ("m", JVal.int m),
       ("permutations", JVal.int (Nat.descFactorial n.toNat m.toNat))] := by
  have hg : ¬(m > n ∨ m < 0 ∨ n < 0) := by omega
  unfold calculate_permutations
  rw [if_neg hg]
  by_cases hc : m = 0
  · rw [if_pos hc]
    subst hc; simp
  · rw [if_neg hc]

/-- C3: on every valid input `0 ≤ m ≤ n`, `calculate_combinations`
returns a success payload whose value is the binomial coefficient
`C(n, m)`, and `calculate_permutations` one whose value is
`n!/(n−m)!`; in particular `m = 0` and `m = n` give exactly 1 for
combinations and `m = 0` gives exactly 1 for permutations. -/
theorem tools_valid_values (n m : Int) (h0 : 0 ≤ m) (h1 : m ≤ n) :
    calculate_combinations n m =
      [("n", JVal.int n), ("m", JVal.int m),
       ("combinations", JVal.int (Nat.choose n.toNat m.toNat))] ∧
    calculate_permutations n m =
      [("n", JVal.int n), ("m", JVal.int m),
       ("permutations",
        JVal.int (n.toNat.factorial / (n.toNat - m.toNat).factorial))] ∧
    (m = 0 ∨ m = n →
      calculate_combinations n m =
        [("n", JVal.int n), ("m", JVal.int m), ("combinations", JVal.int 1)]) ∧
    (m = 0 →
      calculate_permutations n m =
        [("n", JVal.int n), ("m", JVal.int m), ("permutations", JVal.int 1)]) := by
  have hg : ¬(m > n ∨ m < 0 ∨ n < 0) := by omega
  have hmn : m.toNat ≤ n.toNat := Int.toNat_le_toNat h1
  refine ⟨comb_valid_eq n m h0 h1, ?_, ?_, ?_⟩
  · rw [perm_valid_eq n m h0 h1, Nat.descFactorial_eq_div hmn, Int.natCast_div]
  · intro hc
    unfold calculate_combinations
    rw [if_neg hg, if_pos hc]
  · intro hc
    subst hc
    unfold calculate_permutations
    rw [if_neg hg, if_pos rfl]

/-- Witness for C3, at the spec's concrete scenario `C(10,3) = 120`
and `P(5,2) = 20`. -/
theorem tools_valid_values_witness :
    calculate_combinations 10 3 =
      [("n", JVal.int 10), ("m", JVal.int 3), ("combinations", JVal.int 120)] ∧
    calculate_permutations 5 2 =
      [("n", JVal.int 5), ("m", JVal.int 2), ("permutations", JVal.int 20)] := by
  constructor
  · rw [(tools_valid_values 10 3 (by decide) (by decide)).1]
    decide
  · rw [(tools_valid_values 5 2 (by decide) (by decide)).2.1]
    decide

/-- C4: on every invalid input (violating `0 ≤ m ≤ n`), both tools
return the structured error payload with exactly the message
`Invalid input: n and m must be non-negative integers with m <= n`. -/
theorem tools_invalid_error (n m : Int) (h : ¬(0 ≤ m ∧ m ≤ n)) :
    calculate_combinations n m = [("error", JVal.str invalidMsg)] ∧
    calculate_permutations n m = [("error", JVal.str invalidMsg)] ∧
    invalidMsg =
      "Invalid input: n and m must be non-negative integers with m <= n" := by
  have hg : m > n ∨ m < 0 ∨ n < 0 := by omega
  exact ⟨by unfold calculate_combinations; rw [if_pos hg],
         by unfold calculate_permutations; rw [if_pos hg], rfl⟩

/-- Witness for C4, at the spec's scenario `C(3,5)` with `m > n`. -/
theorem tools_invalid_error_witness :
    calculate_combinations 3 5 = [("error", JVal.str invalidMsg)] :=
  (tools_invalid_error 3 5 (by decide)).1

/-- C8: every tool payload has exactly one of two disjoint shapes —
an error payload whose only field is the message, or a success payload
echoing `n` and `m` alongside the single result field, with no
`error` key. -/
theorem payload_shapes_disjoint (n m : Int) :
    (calculate_combinations n m = [("error", JVal.str invalidMsg)] ∨
      (∃ v : Int, calculate_combinations n m =
          [("n", JVal.int n), ("m", JVal.int m),
           ("combinations", JVal.int v)]) ∧
        "error" ∉ (calculate_combinations n m).map Prod.fst) ∧
    (calculate_permutations n m = [("error", JVal.str invalidMsg)] ∨
      (∃ v : Int, calculate_permutations n m =
          [("n", JVal.int n), ("m", JVal.int m),
           ("permutations", JVal.int v)]) ∧
        "error" ∉ (calculate_permutations n m).map Prod.fst) := by
  constructor
  · unfold calculate_combinations
    by_cases hg : m > n ∨ m < 0 ∨ n < 0
    · rw [if_pos hg]; left; rfl
    · rw [if_neg hg]
      by_cases hc : m = 0 ∨ m = n
      · rw [if_pos hc]; right; exact ⟨⟨1, rfl⟩, by simp⟩
      · rw [if_neg hc]; right
        exact ⟨⟨Nat.choose n.toNat m.toNat, rfl⟩, by simp⟩
  · unfold calculate_permutations
    by_cases hg : m > n ∨ m < 0 ∨ n < 0
    · rw [if_pos hg]; left; rfl
    · rw [if_neg hg]
      by_cases hc : m = 0
      · rw [if_pos hc]; right; exact ⟨⟨1, rfl⟩, by simp⟩
      · rw [if_neg hc]; right
        exact ⟨⟨Nat.descFactorial n.toNat m.toNat, rfl⟩, by simp⟩

/-- C9: on every valid input the special-case early-return branches
agree with the general `math.comb` / `math.perm` computation, so each
tool refines its branch-free comparator. -/
theorem special_cases_refine_general (n m : Int) (h0 : 0 ≤ m) (h1 : m ≤ n) :
    calculate_combinations n m = combinations_general n m ∧
    calculate_permutations n m = permutations_general n m := by
  have hg : ¬(m > n ∨ m < 0 ∨ n < 0) := by omega
  constructor
  · rw [comb_valid_eq n m h0 h1]
    unfold combinations_general
    rw [if_neg hg]
  · rw [perm_valid_eq n m h0 h1]
    unfold permutations_general
    rw [if_neg hg]

/-- Witness for C9 at the edge case `m = n`. -/
theorem special_cases_refine_general_witness :
    calculate_combinations 7 7 = combinations_general 7 7 ∧
    calculate_permutations 7 7 = permutations_general 7 7 :=
  special_cases_refine_general 7 7 (by decide) (by decide)

theorem dispatchTools_ok :
    ∀ (tcs : List ToolCall) (messages : List Turn),
      (∀ tc ∈ tcs, tc.arguments.isSome ∧ (available_functions tc.fname).isSome) →
      dispatchTools messages tcs = Except.ok (messages ++ tcs.map execTurn)
  | [], messages, _ => by simp [dispatchTools]
  | tc :: rest, messages, h => by
    obtain ⟨⟨n, m⟩, hnm⟩ := Option.isSome_iff_exists.mp (h tc (by simp)).1
    obtain ⟨f, hf⟩ := Option.isSome_iff_exists.mp (h tc (by simp)).2
    have ih := dispatchTools_ok rest (messages ++ [execTurn tc])
      (fun x hx => h x (List.mem_cons_of_mem _ hx))
    have hexec : execTurn tc =
        { role := Role.tool, content := some (Content.json (f n m)),
          tool_calls := [], tool_call_id := some tc.id,
          fname := some tc.fname } := by
      simp [execTurn, hnm, hf]
    simp only [dispatchTools, hnm, hf]
    rw [← hexec, ih]
    simp

theorem dispatchTools_err_unknown :
    ∀ (good : List ToolCall) (messages : List Turn) (bad : ToolCall)
      (rest : List ToolCall),
      (∀ x ∈ good, x.arguments.isSome ∧ (available_functions x.fname).isSome) →
      bad.arguments.isSome → available_functions bad.fname = none →
      dispatchTools messages (good ++ bad :: rest) =
        Except.error (RunError.unknownTool bad.fname,
          messages ++ good.map execTurn)
  | [], messages, bad, rest, _, hargs, hbad => by
    obtain ⟨⟨n, m⟩, hnm⟩ := Option.isSome_iff_exists.mp hargs
    simp only [List.nil_append, dispatchTools, hnm, hbad, List.map_nil,
      List.append_nil]
  | g :: gs, messages, bad, rest, hgood, hargs, hbad => by
    obtain ⟨⟨n, m⟩, hnm⟩ := Option.isSome_iff_exists.mp (hgood g (by simp)).1
    obtain ⟨f, hf⟩ := Option.isSome_iff_exists.mp (hgood g (by simp)).2
    have ih := dispatchTools_err_unknown gs (messages ++ [execTurn g]) bad rest
      (fun x hx => hgood x (List.mem_cons_of_mem _ hx)) hargs hbad
    have hexec : execTurn g =
        { role := Role.tool, content := some (Content.json (f n m)),
          tool_calls := [], tool_call_id := some g.id,
          fname := some g.fname } := by
      simp [execTurn, hnm, hf]
    simp only [List.cons_append, dispatchTools, hnm, hf, List.append_eq]
    rw [← hexec, ih]
    simp

theorem dispatchTools_err_malformed :
    ∀ (good : List ToolCall) (messages : List Turn) (bad : ToolCall)
      (rest : List ToolCall),
      (∀ x ∈ good, x.arguments.isSome ∧ (available_functions x.fname).isSome) →
      bad.arguments = none →
      dispatchTools messages (good ++ bad :: rest) =
        Except.error (RunError.malformedToolArguments bad.id,
          messages ++ good.map execTurn)
  | [], messages, bad, rest, _, hbad => by
    simp only [List.nil_append, dispatchTools, hbad, List.map_nil,
      List.append_nil]
  | g :: gs, messages, bad, rest, hgood, hbad => by
    obtain ⟨⟨n, m⟩, hnm⟩ := Option.isSome_iff_exists.mp (hgood g (by simp)).1
    obtain ⟨f, hf⟩ := Option.isSome_iff_exists.mp (hgood g (by simp)).2
    have ih := dispatchTools_err_malformed gs (messages ++ [execTurn g]) bad
      rest (fun x hx => hgood x (List.mem_cons_of_mem _ hx)) hbad
    have hexec : execTurn g =
        { role := Role.tool, content := some (Content.json (f n m)),
          tool_calls := [], tool_call_id := some g.id,
          fname := some g.fname } := by
      simp [execTurn, hnm, hf]
    simp only [List.cons_append, dispatchTools, hnm, hf, List.append_eq]
    rw [← hexec, ih]
    simp

theorem runLoop_tools_eq (backend : List Turn → Response) (fuel calls : Nat)
    (messages : List Turn) (tcs : List ToolCall)
    (htc : (backend messages).tool_calls = tcs) (hne : tcs ≠ []) :
    runLoop backend (fuel + 1) messages calls =
      match dispatchTools
          (messages ++ [mkAssistantTools ((backend messages).content) tcs])
          tcs with
      | Except.error e =>
        Except.error { err := e.1, calls := calls + 1, transcript := e.2 }
      | Except.ok msgs => runLoop backend fuel msgs (calls + 1) := by
  obtain ⟨a, l, rfl⟩ : ∃ a l, tcs = a :: l := by
    cases tcs with
    | nil => exact absurd rfl hne
    | cons a l => exact ⟨a, l, rfl⟩
  simp only [runLoop, htc]

theorem runLoop_exhausts (backend : List Turn → Response)
    (hne : ∀ msgs : List Turn, (backend msgs).tool_calls ≠ [])
    (hwf : ∀ msgs : List Turn, ∀ tc ∈ (backend msgs).tool_calls,
      tc.arguments.isSome ∧ (available_functions tc.fname).isSome) :
    ∀ (fuel : Nat) (messages : List Turn) (calls : Nat),
      ∃ r : RunResult, runLoop backend fuel messages calls = Except.ok r ∧
        r.outcome = Outcome.exhausted ∧ r.calls = calls + fuel ∧
        r.result = some sentinelMsg
  | 0, messages, calls =>
    ⟨{ result := some sentinelMsg, transcript := messages, calls := calls,
       outcome := Outcome.exhausted }, rfl, rfl, rfl, rfl⟩
  | fuel + 1, messages, calls => by
    have hd := dispatchTools_ok ((backend messages).tool_calls)
      (messages ++ [mkAssistantTools ((backend messages).content)
        ((backend messages).tool_calls)]) (hwf messages)
    obtain ⟨r, hr, h1, h2, h3⟩ :=
      runLoop_exhausts backend hne hwf fuel
        ((messages ++ [mkAssistantTools ((backend messages).content)
          ((backend messages).tool_calls)]) ++
          ((backend messages).tool_calls).map execTurn) (calls + 1)
    refine ⟨r, ?_, h1, by omega, h3⟩
    rw [runLoop_tools_eq backend fuel calls messages _ rfl (hne messages), hd]
    exact hr

/-- C2: a backend that requests well-formed tool calls on every turn
drives `run` to the `Exhausted` outcome: exactly `max_iterations`
backend calls are made (never one more), and the sentinel string is
returned rather than an exception raised. -/
theorem exhaustion_after_budget (maxIter : Nat)
    (backend : List Turn → Response) (messages : List Turn)
    (hne : ∀ msgs : List Turn, (backend msgs).tool_calls ≠ [])
    (hwf : ∀ msgs : List Turn, ∀ tc ∈ (backend msgs).tool_calls,
      tc.arguments.isSome ∧ (available_functions tc.fname).isSome) :
    ∃ r : RunResult, run maxIter backend messages = Except.ok r ∧
      r.outcome = Outcome.exhausted ∧ r.calls = maxIter ∧
      r.result = some sentinelMsg := by
  obtain ⟨r, hr, h1, h2, h3⟩ :=
    runLoop_exhausts backend hne hwf maxIter messages 0
  exact ⟨r, hr, h1, by omega, h3⟩

/-- Witness for C2: the looping scripted backend with budget 10. -/
theorem exhaustion_after_budget_witness :
    ∃ r : RunResult, run 10 backendLooping [] = Except.ok r ∧
      r.outcome = Outcome.exhausted ∧ r.calls = 10 ∧
      r.result = some sentinelMsg :=
  exhaustion_after_budget 10 backendLooping []
    (fun _ => by simp [backendLooping])
    (fun _ tc h => by
      simp only [backendLooping, List.mem_singleton] at h
      subst h
      exact ⟨rfl, rfl⟩)

/-- C1: when an assistant turn carries `k` tool requests, the loop
appends that assistant turn followed by exactly `k` tool turns, one per
request in request order, each correlated by `tool_call_id` to its
originating request's id, before the next backend call is issued. -/
theorem tool_turns_match_requests (backend : List Turn → Response)
    (fuel calls : Nat) (messages : List Turn) (tcs : List ToolCall)
    (htc : (backend messages).tool_calls = tcs) (hne : tcs ≠ [])
    (hwf : ∀ tc ∈ tcs,
      tc.arguments.isSome ∧ (available_functions tc.fname).isSome) :
    ∃ ts : List Turn,
      runLoop backend (fuel + 1) messages calls =
        runLoop backend fuel
          (messages ++ mkAssistantTools ((backend messages).content) tcs :: ts)
          (calls + 1) ∧
      ts.length = tcs.length ∧
      ∀ i, i < tcs.length →
        ts[i]?.map Turn.role = some Role.tool ∧
        ts[i]?.bind Turn.tool_call_id = tcs[i]?.map ToolCall.id := by
  refine ⟨tcs.map execTurn, ?_, by simp, ?_⟩
  · rw [runLoop_tools_eq backend fuel calls messages tcs htc hne,
      dispatchTools_ok tcs _ hwf]
    have heq : (messages ++ [mkAssistantTools ((backend messages).content) tcs])
        ++ tcs.map execTurn =
        messages ++ mkAssistantTools ((backend messages).content) tcs ::
          tcs.map execTurn := by
      simp
    rw [heq]
  · intro i hi
    have hg : tcs[i]? = some (tcs.get ⟨i, hi⟩) := List.getElem?_eq_getElem hi
    constructor
    · simp [List.getElem?_map, hg, execTurn]
    · simp [List.getElem?_map, hg, execTurn]

/-- Witness for C1: the scripted backend requesting two tool calls in
one assistant turn. -/
theorem tool_turns_match_requests_witness :
    ∃ ts : List Turn,
      runLoop backendTwo 3 [] 0 =
        runLoop backendTwo 2
          ([] ++ mkAssistantTools ((backendTwo []).content) twoCalls :: ts) 1 ∧
      ts.length = twoCalls.length ∧
      ∀ i, i < twoCalls.length →
        ts[i]?.map Turn.role = some Role.tool ∧
        ts[i]?.bind Turn.tool_call_id = twoCalls[i]?.map ToolCall.id :=
  tool_turns_match_requests backendTwo 2 0 [] twoCalls rfl
    (by simp [twoCalls])
    (fun tc h => by
      simp only [twoCalls, List.mem_cons, List.mem_singleton,
        List.not_mem_nil, or_false] at h
      rcases h with rfl | rfl
      · exact ⟨rfl, rfl⟩
      · exact ⟨rfl, rfl⟩)

/-- C5: a backend whose first response carries no tool calls makes
`run` terminate after exactly one backend call in `Done`, returning
that response's text and appending exactly one assistant turn. -/
theorem single_done (maxIter : Nat) (backend : List Turn → Response)
    (messages : List Turn)
    (hnt : (backend messages).tool_calls = []) (hpos : 1 ≤ maxIter) :
    run maxIter backend messages =
      Except.ok { result := (backend messages).content,
                  transcript :=
                    messages ++ [mkAssistantFinal ((backend messages).content)],
                  calls := 1, outcome := Outcome.done } := by
  obtain ⟨k, rfl⟩ : ∃ k, maxIter = k + 1 := ⟨maxIter - 1, by omega⟩
  unfold run
  simp only [runLoop, hnt, Nat.zero_add]

/-- Witness for C5: the scripted backend that never requests a tool. -/
theorem single_done_witness :
    run 10 backendDone [] =
      Except.ok { result := some "hello",
                  transcript := [] ++ [mkAssistantFinal (some "hello")],
                  calls := 1, outcome := Outcome.done } :=
  single_done 10 backendDone [] rfl (by omega)

/-- C6: a response requesting an unregistered tool name (after any
well-formed earlier requests of the same batch) makes `run` raise
`UnknownTool`: the error propagates out and the recorded backend-call
count stays at the call that produced the bad batch, so no further
backend call occurs. -/
theorem unknown_tool_fatal (maxIter : Nat) (backend : List Turn → Response)
    (messages : List Turn) (good : List ToolCall) (bad : ToolCall)
    (rest : List ToolCall)
    (htc : (backend messages).tool_calls = good ++ bad :: rest)
    (hgood : ∀ x ∈ good,
      x.arguments.isSome ∧ (available_functions x.fname).isSome)
    (hargs : bad.arguments.isSome)
    (hbad : available_functions bad.fname = none)
    (hpos : 1 ≤ maxIter) :
    run maxIter backend messages =
      Except.error
        { err := RunError.unknownTool bad.fname, calls := 1,
          transcript :=
            messages ++ mkAssistantTools ((backend messages).content)
              (good ++ bad :: rest) :: good.map execTurn } := by
  obtain ⟨k, rfl⟩ : ∃ k, maxIter = k + 1 := ⟨maxIter - 1, by omega⟩
  unfold run
  rw [runLoop_tools_eq backend k 0 messages _ htc (by simp),
    dispatchTools_err_unknown good _ bad rest hgood hargs hbad]
  have heq : (messages ++ [mkAssistantTools ((backend messages).content)
      (good ++ bad :: rest)]) ++ good.map execTurn =
      messages ++ mkAssistantTools ((backend messages).content)
        (good ++ bad :: rest) :: good.map execTurn := by
    simp
  rw [heq]

/-- Witness for C6: a scripted backend requesting `no_such_tool`. -/
theorem unknown_tool_fatal_witness :
    run 10 backendUnknown [] =
      Except.error
        { err := RunError.unknownTool "no_such_tool", calls := 1,
          transcript :=
            [mkAssistantTools (some "t")
              [{ id := "call_x", fname := "no_such_tool",
                 arguments := some (1, 1) }]] } :=
  unknown_tool_fatal 10 backendUnknown [] []
    { id := "call_x", fname := "no_such_tool", arguments := some (1, 1) } []
    rfl (by simp) rfl rfl (by omega)

/-- C7: a tool request whose argument payload does not decode makes
`run` raise `MalformedToolArguments`: the request is not skipped — no
tool turn for it is appended (the transcript ends with the tool turns
of the earlier well-formed requests) and no further backend call
occurs. -/
theorem malformed_arguments_fatal (maxIter : Nat)
    (backend : List Turn → Response) (messages : List Turn)
    (good : List ToolCall) (bad : ToolCall) (rest : List ToolCall)
    (htc : (backend messages).tool_calls = good ++ bad :: rest)
    (hgood : ∀ x ∈ good,
      x.arguments.isSome ∧ (available_functions x.fname).isSome)
    (hbad : bad.arguments = none)
    (hpos : 1 ≤ maxIter) :
    run maxIter backend messages =
      Except.error
        { err := RunError.malformedToolArguments bad.id, calls := 1,
          transcript :=
            messages ++ mkAssistantTools ((backend messages).content)
              (good ++ bad :: rest) :: good.map execTurn } := by
  obtain ⟨k, rfl⟩ : ∃ k, maxIter = k + 1 := ⟨maxIter - 1, by omega⟩
  unfold run
  rw [runLoop_tools_eq backend k 0 messages _ htc (by simp),
    dispatchTools_err_malformed good _ bad rest hgood hbad]
  have heq : (messages ++ [mkAssistantTools ((backend messages).content)
      (good ++ bad :: rest)]) ++ good.map execTurn =
      messages ++ mkAssistantTools ((backend messages).content)
        (good ++ bad :: rest) :: good.map execTurn := by
    simp
  rw [heq]

/-- Witness for C7: a scripted backend whose tool call's arguments do
not decode. -/
theorem malformed_arguments_fatal_witness :
    run 10 backendMalformed [] =
      Except.error
        { err := RunError.malformedToolArguments "call_y", calls := 1,
          transcript :=
            [mkAssistantTools none
              [{ id := "call_y", fname := "calculate_combinations",
                 arguments := none }]] } :=
  malformed_arguments_fatal 10 backendMalformed [] []
    { id := "call_y", fname := "calculate_combinations", arguments := none }
    [] rfl (by simp) rfl (by omega)

theorem dispatchTools_ok_shape :
    ∀ (tcs : List ToolCall) (messages msgs2 : List Turn),
      dispatchTools messages tcs = Except.ok msgs2 →
      ∃ ts : List Turn, msgs2 = messages ++ ts ∧ ts.length = tcs.length ∧
        ∀ t ∈ ts, t.role = Role.tool
  | [], messages, msgs2, h => by
    simp only [dispatchTools, Except.ok.injEq] at h
    exact ⟨[], by simp [h], by simp, by simp⟩
  | tc :: rest, messages, msgs2, h => by
    cases hnm : tc.arguments with
    | none =>
      simp only [dispatchTools, hnm] at h
      exact Except.noConfusion h
    | some nm =>
      obtain ⟨n, m⟩ := nm
      cases hf : available_functions tc.fname with
      | none =>
        simp only [dispatchTools, hnm, hf] at h
        exact Except.noConfusion h
      | some f =>
        simp only [dispatchTools, hnm, hf] at h
        obtain ⟨ts, h1, h2, h3⟩ := dispatchTools_ok_shape rest _ msgs2 h
        refine ⟨{ role := Role.tool, content := some (Content.json (f n m)),
                  tool_calls := [], tool_call_id := some tc.id,
                  fname := some tc.fname } :: ts,
          by rw [h1]; simp, by simp [h2], ?_⟩
        intro t ht
        rcases List.mem_cons.mp ht with rfl | ht
        · rfl
        · exact h3 t ht

theorem runLoop_exhausted_shape :
    ∀ (fuel : Nat) (backend : List Turn → Response) (messages : List Turn)
      (calls : Nat) (r : RunResult),
      runLoop backend fuel messages calls = Except.ok r →
      r.outcome = Outcome.exhausted →
      r.result = some sentinelMsg ∧
      ((fuel = 0 ∧ r.transcript = messages) ∨
        ∃ pre t, r.transcript = pre ++ [t] ∧ t.role = Role.tool)
  | 0, backend, messages, calls, r, h, _ => by
    simp only [runLoop, Except.ok.injEq] at h
    subst h
    exact ⟨rfl, Or.inl ⟨rfl, rfl⟩⟩
  | fuel + 1, backend, messages, calls, r, h, hx => by
    cases htc : (backend messages).tool_calls with
    | nil =>
      simp only [runLoop, htc, Except.ok.injEq] at h
      subst h
      simp at hx
    | cons tc rest =>
      rw [runLoop_tools_eq backend fuel calls messages (tc :: rest) htc
        (by simp)] at h
      cases hd : dispatchTools
          (messages ++
            [mkAssistantTools ((backend messages).content) (tc :: rest)])
          (tc :: rest) with
      | error e =>
        rw [hd] at h
        exact Except.noConfusion h
      | ok msgs2 =>
        rw [hd] at h
        obtain ⟨hres, hsh⟩ :=
          runLoop_exhausted_shape fuel backend msgs2 (calls + 1) r h hx
        refine ⟨hres, Or.inr ?_⟩
        rcases hsh with ⟨-, htr⟩ | ⟨pre, t, htr, hrole⟩
        · obtain ⟨ts, h1, h2, h3⟩ := dispatchTools_ok_shape (tc :: rest) _ msgs2 hd
          rcases ts.eq_nil_or_concat with rfl | ⟨L, b, rfl⟩
          · simp at h2
          · refine ⟨messages ++
                [mkAssistantTools ((backend messages).content) (tc :: rest)] ++
                L, b, by rw [htr, h1]; simp, h3 b (by simp)⟩
        · exact ⟨pre, t, htr, hrole⟩

/-- C10: when a run ends `Exhausted`, the sentinel is only returned,
never appended — the final transcript ends with a tool turn of the last
dispatched batch, with no trailing assistant turn carrying the sentinel
or any final answer. -/
theorem exhausted_no_final_append (maxIter : Nat)
    (backend : List Turn → Response) (messages : List Turn) (r : RunResult)
    (hpos : 1 ≤ maxIter)
    (hr : run maxIter backend messages = Except.ok r)
    (hx : r.outcome = Outcome.exhausted) :
    r.result = some sentinelMsg ∧
    ∃ pre t, r.transcript = pre ++ [t] ∧ t.role = Role.tool := by
  obtain ⟨hres, hsh⟩ :=
    runLoop_exhausted_shape maxIter backend messages 0 r hr hx
  rcases hsh with ⟨h0, -⟩ | hsh
  · omega
  · exact ⟨hres, hsh⟩

/-- Witness for C10: the looping scripted backend with budget 2. -/
theorem exhausted_no_final_append_witness :
    run 2 backendLooping [] = Except.ok exhaustedRun ∧
    exhaustedRun.outcome = Outcome.exhausted ∧
    (exhaustedRun.result = some sentinelMsg ∧
      ∃ pre t, exhaustedRun.transcript = pre ++ [t] ∧ t.role = Role.tool) :=
  ⟨rfl, rfl,
   exhausted_no_final_append 2 backendLooping [] exhaustedRun
     (by omega) rfl rfl⟩
